import Mathlib

/-!
  # Verification of the dropsite resumable-upload system

  Shallow embedding of the dropsite repository's core: the resumable
  chunked transfer protocol engine (modelled from the spec, since both
  protocol halves are delegated to third-party tus libraries not present
  in the repository), the server's upload-id naming function
  (`src/client/src/App.jsx`, server section, `namingFunction`), and the
  client-side rate estimator, file-selection guard and formatting helpers
  (`src/client/src/App.jsx` and `src/unnamed/part_000`).

  Machine integers are modelled as `Nat`/`Int`; JavaScript numbers that
  the claims treat arithmetically are modelled as `Rat` (exact arithmetic
  in place of IEEE floats; every claim settled here is about guard and
  control-flow structure, not float rounding). Byte strings are `List Nat`.
-/

deriving instance DecidableEq for Except

namespace Dropsite

/-! ## Transfer Protocol Engine (server side)

  Modelled from the spec: the Transfer Protocol Engine and Upload Registry
  are implemented by the third-party `@tus/server` library, which is not
  part of this repository (the repository only wires it to a `FileStore`
  and a max size); the operations below follow the spec's §4.1 operation
  descriptions word by word. -/

/-- Modelled from the spec: one server-owned `UploadRecord` per transfer
attempt.  `bytes` is the durably stored content, held inline so the
engine's already-applied (idempotent retry) check can compare
previously-written bytes. -/
structure UploadRecord where
  declaredSize : Nat
  receivedLength : Nat
  metadata : List (String × String)
  createdAt : Nat
  completed : Bool
  bytes : List Nat
deriving DecidableEq, Repr

/-- Modelled from the spec: the error taxonomy of §4.1/§7. -/
inductive EngineError where
  | notFound
  | offsetMismatch
  | overflow
  | sizeExceeded
  | incomplete
deriving DecidableEq, Repr

/-- Modelled from the spec: the Upload Registry is a key/value store from
`id` to `UploadRecord`, together with the configured maximum file size. -/
structure EngineState where
  maxFileSize : Nat
  registry : List (String × UploadRecord)
deriving DecidableEq, Repr

/-- Lookup of an id in the registry association list (first match wins). -/
def lookupReg : List (String × UploadRecord) → String → Option UploadRecord
  | [], _ => none
  | (k, v) :: rest, id => if k = id then some v else lookupReg rest id

/-- Replace every entry of the given id by the given record. -/
def setReg : List (String × UploadRecord) → String → UploadRecord → List (String × UploadRecord)
  | [], _, _ => []
  | (k, v) :: rest, id, r =>
      if k = id then (k, r) :: setReg rest id r else (k, v) :: setReg rest id r

/-- Registry lookup lifted to the engine state. -/
def lookupRecord (s : EngineState) (id : String) : Option UploadRecord :=
  lookupReg s.registry id

/-- Registry update lifted to the engine state. -/
def setRecord (s : EngineState) (id : String) (r : UploadRecord) : EngineState :=
  { s with registry := setReg s.registry id r }

/-- The engine as configured at server start: a maximum file size and an
empty registry. -/
def engineInit (maxFileSize : Nat) : EngineState :=
  { maxFileSize := maxFileSize, registry := [] }

/-- Write `chunk` into `l` at byte offset `off` (the storage backend's
`writeAt`): bytes before `off` kept, the chunk's span replaced, bytes after
the chunk's end kept. -/
def writeAt (l : List Nat) (off : Nat) (chunk : List Nat) : List Nat :=
  l.take off ++ chunk ++ l.drop (off + chunk.length)

/-- The `len` stored bytes starting at offset `off`. -/
def sliceBytes (l : List Nat) (off len : Nat) : List Nat :=
  (l.drop off).take len

namespace Engine

/-- Modelled from the spec: `Create(declaredSize, metadata) → id` validates
`0 < declaredSize <= maxFileSize` and fails with `SizeExceeded` otherwise;
on success it allocates an `UploadRecord` with `receivedLength = 0`.  The
generated id and creation time are inputs here (id generation is the
server wiring's `namingFunction`, embedded separately below). -/
def create (s : EngineState) (id : String) (declaredSize : Nat)
    (metadata : List (String × String)) (now : Nat) :
    Except EngineError (String × EngineState) :=
  if 0 < declaredSize ∧ declaredSize ≤ s.maxFileSize then
    .ok (id, { s with registry :=
      (id, ⟨declaredSize, 0, metadata, now, false, []⟩) :: s.registry })
  else
    .error .sizeExceeded

/-- Modelled from the spec: `Patch(id, offset, chunkBytes) → newReceivedLength`.
`NotFound` if the id is unknown.  At the frontier (`offset = receivedLength`):
`Overflow` if the chunk would exceed `declaredSize`, otherwise the chunk is
written durably, `receivedLength` advances by the chunk length and
`completed` is marked when the frontier reaches `declaredSize`.  Off the
frontier, the engine detects the already-applied case (`offset <
receivedLength`, the chunk entirely within the written prefix, and the
previously-written bytes matching) and returns the current `receivedLength`
idempotently without mutating anything; every other offset fails with
`OffsetMismatch`. -/
def patch (s : EngineState) (id : String) (offset : Nat) (chunk : List Nat) :
    Except EngineError (Nat × EngineState) :=
  match lookupRecord s id with
  | none => .error .notFound
  | some r =>
    if offset = r.receivedLength then
      if r.declaredSize < offset + chunk.length then
        .error .overflow
      else
        let newLen := offset + chunk.length
        let r' : UploadRecord :=
          { r with
            receivedLength := newLen
            completed := decide (newLen = r.declaredSize) || r.completed
            bytes := writeAt r.bytes offset chunk }
        .ok (newLen, setRecord s id r')
    else if offset < r.receivedLength ∧ offset + chunk.length ≤ r.receivedLength ∧
        sliceBytes r.bytes offset chunk.length = chunk then
      .ok (r.receivedLength, s)
    else
      .error .offsetMismatch

/-- Modelled from the spec: `Head(id)` is a pure read returning
`receivedLength`, `declaredSize` and the completion flag. -/
def head (s : EngineState) (id : String) : Except EngineError (Nat × Nat × Bool) :=
  match lookupRecord s id with
  | none => .error .notFound
  | some r => .ok (r.receivedLength, r.declaredSize, r.completed)

/-- Modelled from the spec: `Finalize(id)` is a no-op if already completed
and fails with `Incomplete` otherwise. -/
def finalize (s : EngineState) (id : String) : Except EngineError EngineState :=
  match lookupRecord s id with
  | none => .error .notFound
  | some r => if r.completed then .ok s else .error .incomplete

end Engine

/-- One protocol operation, as received by the engine. -/
inductive EngineOp where
  | create (id : String) (declaredSize : Nat) (metadata : List (String × String)) (now : Nat)
  | patch (id : String) (offset : Nat) (chunk : List Nat)
  | head (id : String)
  | finalize (id : String)
deriving DecidableEq, Repr

/-- State evolution under one operation: a failed operation leaves the
registry untouched (spec §7: a write either is fully durable and reflected
in `receivedLength`, or fails with `receivedLength` unchanged); `Head` and
`Finalize` never mutate. -/
def stepEngine (s : EngineState) : EngineOp → EngineState
  | .create id d m now =>
    match Engine.create s id d m now with
    | .ok (_, s') => s'
    | .error _ => s
  | .patch id off c =>
    match Engine.patch s id off c with
    | .ok (_, s') => s'
    | .error _ => s
  | .head _ => s
  | .finalize _ => s

/-- A sequence of operations applied in order. -/
def runEngine (s : EngineState) (ops : List EngineOp) : EngineState :=
  ops.foldl stepEngine s

/-- Every record in the registry has its received frontier within its
declared size. -/
def GoodState (s : EngineState) : Prop :=
  ∀ id r, lookupRecord s id = some r → r.receivedLength ≤ r.declaredSize

/-- Every record stores exactly `receivedLength` bytes (the stored bytes
are a contiguous prefix of the final file, spec §3). -/
def WfState (s : EngineState) : Prop :=
  ∀ id r, lookupRecord s id = some r → r.bytes.length = r.receivedLength

/-! ### Registry lemmas -/

theorem lookupReg_setReg_self (reg : List (String × UploadRecord)) (id : String)
    (r : UploadRecord) :
    lookupReg (setReg reg id r) id = (lookupReg reg id).map (fun _ => r) := by
  induction reg with
  | nil => rfl
  | cons p rest ih =>
    obtain ⟨k, v⟩ := p
    by_cases hk : k = id <;> simp [lookupReg, setReg, hk, ih]

theorem lookupReg_setReg_other (reg : List (String × UploadRecord)) (id id' : String)
    (r : UploadRecord) (h : id' ≠ id) :
    lookupReg (setReg reg id r) id' = lookupReg reg id' := by
  induction reg with
  | nil => rfl
  | cons p rest ih =>
    obtain ⟨k, v⟩ := p
    by_cases hk : k = id
    · subst hk
      simp [lookupReg, setReg, Ne.symm h, ih]
    · by_cases hk' : k = id' <;> simp [lookupReg, setReg, hk, hk', ih, h]

/-! ### Engine step analysis -/

theorem lookupRecord_setRecord_self (s : EngineState) (id : String)
    (r₀ r : UploadRecord) (h : lookupRecord s id = some r₀) :
    lookupRecord (setRecord s id r) id = some r := by
  simp only [lookupRecord, setRecord] at *
  rw [lookupReg_setReg_self, h]
  rfl

theorem lookupRecord_setRecord_other (s : EngineState) (id id' : String)
    (r : UploadRecord) (h : id' ≠ id) :
    lookupRecord (setRecord s id r) id' = lookupRecord s id' := by
  simp only [lookupRecord, setRecord]
  exact lookupReg_setReg_other _ _ _ _ h

theorem goodState_init (maxFileSize : Nat) : GoodState (engineInit maxFileSize) := by
  intro id r h
  simp [lookupRecord, lookupReg, engineInit] at h

/-- A `Patch` step either leaves the state untouched (error or idempotent
replay) or performs the frontier write described by `Engine.patch`. -/
theorem stepEngine_patch_cases (s : EngineState) (id : String) (off : Nat)
    (c : List Nat) :
    stepEngine s (.patch id off c) = s ∨
    (∃ r, lookupRecord s id = some r ∧ off = r.receivedLength ∧
      ¬ r.declaredSize < off + c.length ∧
      stepEngine s (.patch id off c) = setRecord s id
        { r with
          receivedLength := off + c.length
          completed := decide (off + c.length = r.declaredSize) || r.completed
          bytes := writeAt r.bytes off c }) := by
  cases hlk : lookupRecord s id with
  | none =>
    left
    simp [stepEngine, Engine.patch, hlk]
  | some r =>
    by_cases hoff : off = r.receivedLength
    · subst hoff
      by_cases hov : r.declaredSize < r.receivedLength + c.length
      · left
        simp [stepEngine, Engine.patch, hlk, hov]
      · right
        exact ⟨r, rfl, rfl, hov, by simp [stepEngine, Engine.patch, hlk, hov]⟩
    · left
      by_cases hid : off < r.receivedLength ∧ off + c.length ≤ r.receivedLength ∧
          sliceBytes r.bytes off c.length = c <;>
        simp [stepEngine, Engine.patch, hlk, hoff, hid]

theorem goodState_step (s : EngineState) (op : EngineOp) (h : GoodState s) :
    GoodState (stepEngine s op) := by
  cases op with
  | create id d m now =>
    by_cases hv : 0 < d ∧ d ≤ s.maxFileSize
    · intro id' r' hl'
      simp only [stepEngine, Engine.create, if_pos hv] at hl'
      simp only [lookupRecord, lookupReg] at hl'
      split at hl'
      · cases hl'
        exact Nat.zero_le _
      · exact h id' r' hl'
    · simpa [stepEngine, Engine.create, hv] using h
  | patch id off c =>
    rcases stepEngine_patch_cases s id off c with heq | ⟨r, hlk, hoff, hov, heq⟩
    · rwa [heq]
    · rw [heq]
      intro id' r' hl'
      by_cases hid : id' = id
      · subst hid
        rw [lookupRecord_setRecord_self s id' r _ hlk] at hl'
        cases hl'
        simpa using Nat.le_of_not_lt hov
      · rw [lookupRecord_setRecord_other s id id' _ hid] at hl'
        exact h id' r' hl'
  | head id => exact h
  | finalize id => exact h

theorem goodState_run (s : EngineState) (ops : List EngineOp) (h : GoodState s) :
    GoodState (runEngine s ops) := by
  induction ops generalizing s with
  | nil => exact h
  | cons op rest ih => exact ih (stepEngine s op) (goodState_step s op h)

/-- One step never shrinks the received frontier of an id it does not
re-create. -/
theorem stepEngine_mono (s : EngineState) (op : EngineOp) (id : String)
    (r : UploadRecord) (hop : ∀ d m n, op ≠ .create id d m n)
    (h : lookupRecord s id = some r) :
    ∃ r', lookupRecord (stepEngine s op) id = some r' ∧
      r.receivedLength ≤ r'.receivedLength := by
  cases op with
  | create id' d m now =>
    have hne : id' ≠ id := by
      intro e
      exact hop d m now (by rw [e])
    by_cases hv : 0 < d ∧ d ≤ s.maxFileSize
    · refine ⟨r, ?_, le_refl _⟩
      simp only [stepEngine, Engine.create, if_pos hv]
      simpa [lookupRecord, lookupReg, hne] using h
    · exact ⟨r, by simpa [stepEngine, Engine.create, hv] using h, le_refl _⟩
  | patch id' off c =>
    rcases stepEngine_patch_cases s id' off c with heq | ⟨r₀, hlk, hoff, hov, heq⟩
    · exact ⟨r, by rwa [heq], le_refl _⟩
    · by_cases hid : id' = id
      · subst hid
        rw [h] at hlk
        injection hlk with hr
        subst hr
        rw [heq]
        refine ⟨{ r with
            receivedLength := off + c.length
            completed := decide (off + c.length = r.declaredSize) || r.completed
            bytes := writeAt r.bytes off c }, ?_, ?_⟩
        · exact lookupRecord_setRecord_self s id' r _ h
        · simp [← hoff]
      · refine ⟨r, ?_, le_refl _⟩
        rw [heq, lookupRecord_setRecord_other s id' id _ (fun e => hid e.symm)]
        exact h
  | head id' => exact ⟨r, h, le_refl _⟩
  | finalize id' => exact ⟨r, h, le_refl _⟩

theorem runEngine_mono (ops : List EngineOp) (s : EngineState) (id : String)
    (r : UploadRecord) (hops : ∀ d m n, EngineOp.create id d m n ∉ ops)
    (h : lookupRecord s id = some r) :
    ∃ r', lookupRecord (runEngine s ops) id = some r' ∧
      r.receivedLength ≤ r'.receivedLength := by
  induction ops generalizing s r with
  | nil => exact ⟨r, h, le_refl _⟩
  | cons op rest ih =>
    have hop : ∀ d m n, op ≠ EngineOp.create id d m n := by
      intro d m n e
      exact hops d m n (by rw [← e]; exact List.mem_cons_self op rest)
    obtain ⟨r₁, h₁, hle₁⟩ := stepEngine_mono s op id r hop h
    have hrest : ∀ d m n, EngineOp.create id d m n ∉ rest := by
      intro d m n hmem
      exact hops d m n (List.mem_cons_of_mem op hmem)
    obtain ⟨r₂, h₂, hle₂⟩ := ih (stepEngine s op) r₁ hrest h₁
    exact ⟨r₂, h₂, le_trans hle₁ hle₂⟩

/-! ### Claim C3 -/

/-- C3: over every sequence of Create/Patch/Head/Finalize operations from a
freshly started engine, every upload record satisfies
`0 ≤ receivedLength ≤ declaredSize` after each operation (the lower bound
is carried by `Nat`), and the `receivedLength` a `Head` would report for a
given id is monotonically non-decreasing over the id's lifetime: if the id
resolves to `r₁` after a prefix `ops₁` and to `r₂` after `ops₁ ++ ops₂`,
with no re-`Create` of that id in the extension (upload ids are fresh at
creation), then `r₂` respects the size bound and
`r₁.receivedLength ≤ r₂.receivedLength`. -/
theorem engine_invariant_head_monotone (maxFileSize : Nat)
    (ops₁ ops₂ : List EngineOp) (id : String) (r₁ r₂ : UploadRecord)
    (h₁ : lookupRecord (runEngine (engineInit maxFileSize) ops₁) id = some r₁)
    (h₂ : lookupRecord (runEngine (engineInit maxFileSize) (ops₁ ++ ops₂)) id = some r₂)
    (hfresh : ∀ d m n, EngineOp.create id d m n ∉ ops₂) :
    r₂.receivedLength ≤ r₂.declaredSize ∧ r₁.receivedLength ≤ r₂.receivedLength := by
  constructor
  · exact goodState_run (engineInit maxFileSize) (ops₁ ++ ops₂)
      (goodState_init maxFileSize) id r₂ h₂
  · rw [runEngine, List.foldl_append, ← runEngine, ← runEngine] at h₂
    obtain ⟨r', hr', hle⟩ :=
      runEngine_mono ops₂ (runEngine (engineInit maxFileSize) ops₁) id r₁ hfresh h₁
    rw [hr'] at h₂
    injection h₂ with hr
    subst hr
    exact hle

/-- The record visible after creating upload `"f"` of declared size `10`. -/
def recAfterCreate : UploadRecord := ⟨10, 0, [], 0, false, []⟩

/-- The record visible after additionally patching `[1, 2]` at offset `0`. -/
def recAfterPatch : UploadRecord := ⟨10, 2, [], 0, false, [1, 2]⟩

theorem engine_invariant_head_monotone_witness :
    recAfterPatch.receivedLength ≤ recAfterPatch.declaredSize ∧
      recAfterCreate.receivedLength ≤ recAfterPatch.receivedLength := by
  have hfresh : ∀ d m n,
      EngineOp.create "f" d m n ∉ [EngineOp.patch "f" 0 [1, 2]] := by
    intro d m n hmem
    rw [List.mem_singleton] at hmem
    exact EngineOp.noConfusion hmem
  exact engine_invariant_head_monotone 100 [EngineOp.create "f" 10 [] 0]
    [EngineOp.patch "f" 0 [1, 2]] "f" recAfterCreate recAfterPatch
    (by decide) (by decide) hfresh

/-! ### Claim C4 -/

/-- C4: a `Create` whose declared size is not a positive integer at most
the configured maximum fails with `SizeExceeded`, and the registry is
unchanged (the state transition is the identity): no `UploadRecord` is
created. -/
theorem create_sizeExceeded (s : EngineState) (id : String) (d : Nat)
    (m : List (String × String)) (now : Nat)
    (h : ¬(0 < d ∧ d ≤ s.maxFileSize)) :
    Engine.create s id d m now = .error .sizeExceeded ∧
      stepEngine s (.create id d m now) = s := by
  constructor
  · rw [Engine.create, if_neg h]
  · simp [stepEngine, Engine.create, h]

theorem create_sizeExceeded_witness :
    Engine.create (engineInit 100) "f" 101 [] 0 = .error .sizeExceeded ∧
      stepEngine (engineInit 100) (.create "f" 101 [] 0) = engineInit 100 :=
  create_sizeExceeded (engineInit 100) "f" 101 [] 0 (by decide)

/-! ### Claims C1 and C2 -/

theorem writeAt_nil (l : List Nat) (off : Nat) : writeAt l off [] = l := by
  simp [writeAt, List.take_append_drop]

/-- A write exactly at the stored frontier appends the chunk. -/
theorem writeAt_frontier (l : List Nat) (c : List Nat) :
    writeAt l l.length c = l ++ c := by
  simp [writeAt, List.take_length,
    List.drop_eq_nil_of_le (Nat.le_add_right l.length c.length)]

/-- Reading back a chunk just appended at the frontier returns the chunk. -/
theorem sliceBytes_frontier (l : List Nat) (c : List Nat) :
    sliceBytes (l ++ c) l.length c.length = c := by
  simp [sliceBytes, List.drop_left]

theorem setReg_setReg (reg : List (String × UploadRecord)) (id : String)
    (r r' : UploadRecord) :
    setReg (setReg reg id r) id r' = setReg reg id r' := by
  induction reg with
  | nil => rfl
  | cons p rest ih =>
    obtain ⟨k, v⟩ := p
    by_cases hk : k = id <;> simp [setReg, hk, ih]

theorem setRecord_setRecord (s : EngineState) (id : String)
    (r r' : UploadRecord) :
    setRecord (setRecord s id r) id r' = setRecord s id r' := by
  simp [setRecord, setReg_setReg]

theorem bool_or_self_left (a b : Bool) : (a || (a || b)) = (a || b) := by
  cases a <;> simp

/-- C1 (amended): a `Patch` whose offset differs from the record's current
`receivedLength` either fails with `OffsetMismatch`, or — exactly in the
already-applied replay case — succeeds idempotently returning the current
`receivedLength`; in both cases the engine state (hence the record's
`receivedLength`) is unchanged, the success outcome carrying the unchanged
state `s` itself. -/
theorem patch_offsetMismatch (s : EngineState) (id : String) (off : Nat)
    (c : List Nat) (r : UploadRecord) (h : lookupRecord s id = some r)
    (hne : off ≠ r.receivedLength) :
    Engine.patch s id off c = .error .offsetMismatch ∨
      Engine.patch s id off c = .ok (r.receivedLength, s) := by
  by_cases hcond : off < r.receivedLength ∧ off + c.length ≤ r.receivedLength ∧
      sliceBytes r.bytes off c.length = c
  · right
    simp [Engine.patch, h, hne, hcond]
  · left
    simp [Engine.patch, h, hne, hcond]

/-- The engine state after `Create("f", 10)` followed by
`Patch("f", 0, [1, 2])`. -/
def exEngineState : EngineState := ⟨100, [("f", recAfterPatch)]⟩

/-- C1 counterexample: in `exEngineState` the record's `receivedLength` is
`2`, and re-sending `Patch("f", 0, [1, 2])` — an offset different from the
current `receivedLength` — does not fail with `OffsetMismatch` as the
claim states: it succeeds idempotently with the unchanged state. -/
theorem patch_offsetMismatch_cex :
    lookupRecord exEngineState "f" = some recAfterPatch ∧
      (0 : Nat) ≠ recAfterPatch.receivedLength ∧
      Engine.patch exEngineState "f" 0 [1, 2] = .ok (2, exEngineState) ∧
      Engine.patch exEngineState "f" 0 [1, 2] ≠ .error .offsetMismatch := by
  decide

theorem patch_offsetMismatch_witness :
    Engine.patch exEngineState "f" 5 [9] = .error .offsetMismatch ∨
      Engine.patch exEngineState "f" 5 [9] =
        .ok (recAfterPatch.receivedLength, exEngineState) :=
  patch_offsetMismatch exEngineState "f" 5 [9] recAfterPatch
    (by decide) (by decide)

/-- C2: re-issuing a `Patch` whose effect was already applied is
idempotent — if `Patch(id, offset, chunk)` succeeded from a well-formed
state, yielding `newReceivedLength = n` and state `s'`, then re-sending the
very same `(offset, chunk)` against `s'` (the lost-response retry) returns
the same `n`, does not error, and leaves the state exactly `s'` (so the
bytes are not written a second time). -/
theorem patch_idempotent (s : EngineState) (id : String) (off : Nat)
    (c : List Nat) (n : Nat) (s' : EngineState) (hw : WfState s)
    (h : Engine.patch s id off c = .ok (n, s')) :
    Engine.patch s' id off c = .ok (n, s') := by
  cases hlk : lookupRecord s id with
  | none => simp [Engine.patch, hlk] at h
  | some r =>
    have hb : r.bytes.length = r.receivedLength := hw id r hlk
    by_cases hoff : off = r.receivedLength
    · subst hoff
      by_cases hov : r.declaredSize < r.receivedLength + c.length
      · simp [Engine.patch, hlk, hov] at h
      · simp only [Engine.patch, hlk] at h
        rw [if_pos trivial, if_neg hov] at h
        rw [Except.ok.injEq, Prod.mk.injEq] at h
        obtain ⟨hn, hs⟩ := h
        subst hn
        subst hs
        cases c with
        | nil =>
          have hlk' := lookupRecord_setRecord_self s id r
            { r with
              receivedLength := r.receivedLength + ([] : List Nat).length
              completed :=
                decide (r.receivedLength + ([] : List Nat).length = r.declaredSize) ||
                  r.completed
              bytes := writeAt r.bytes r.receivedLength ([] : List Nat) } hlk
          simp only [Engine.patch, hlk']
          rw [if_pos (by simp), if_neg (by simpa using hov)]
          simp [writeAt_nil, setRecord_setRecord, bool_or_self_left]
        | cons hd tl =>
          have hlk' := lookupRecord_setRecord_self s id r
            { r with
              receivedLength := r.receivedLength + (hd :: tl).length
              completed :=
                decide (r.receivedLength + (hd :: tl).length = r.declaredSize) || r.completed
              bytes := writeAt r.bytes r.receivedLength (hd :: tl) } hlk
          simp only [Engine.patch, hlk']
          rw [if_neg (by simp), if_pos ?hcond]
          case hcond =>
            refine ⟨by simp, le_refl _, ?_⟩
            rw [show writeAt r.bytes r.receivedLength (hd :: tl) =
                r.bytes ++ hd :: tl from by rw [← hb, writeAt_frontier]]
            rw [show r.receivedLength = r.bytes.length from hb.symm,
              sliceBytes_frontier]
    · by_cases hcond : off < r.receivedLength ∧
          off + c.length ≤ r.receivedLength ∧ sliceBytes r.bytes off c.length = c
      · have h' := h
        simp only [Engine.patch, hlk] at h'
        rw [if_neg hoff, if_pos hcond, Except.ok.injEq, Prod.mk.injEq] at h'
        obtain ⟨hn, hs⟩ := h'
        subst hn
        subst hs
        exact h
      · simp [Engine.patch, hlk, hoff, hcond] at h

theorem patch_idempotent_witness :
    Engine.patch exEngineState "f" 0 [1, 2] = .ok (2, exEngineState) := by
  have hw : WfState ⟨100, [("f", recAfterCreate)]⟩ := by
    intro id r h
    simp only [lookupRecord, lookupReg] at h
    split at h
    · cases h
      rfl
    · simp [lookupReg] at h
  exact patch_idempotent ⟨100, [("f", recAfterCreate)]⟩ "f" 0 [1, 2] 2
    exEngineState hw (by decide)

/-! ## Server upload-id generation

  Embeds `namingFunction` from the server section of
  `src/client/src/App.jsx` (lines 580-611): the id is the creation
  timestamp in milliseconds encoded in base 36, joined by `-` to the
  sanitized original filename. -/

/-- One base-36 digit as JavaScript `Number.prototype.toString(36)` emits
them: `0`-`9` then `a`-`z`. -/
def base36Digit (n : Nat) : Char :=
  if n < 10 then Char.ofNat (48 + n) else Char.ofNat (87 + n)

/-- Base-36 digits of `n`, most significant first, empty for `0`; the fuel
argument (always called with `fuel = n`, which bounds the digit count since
the value shrinks by a factor of 36 each step) makes the recursion
structural. -/
def toBase36Go (fuel n : Nat) : List Char :=
  match fuel with
  | 0 => []
  | fuel + 1 =>
    if n = 0 then [] else toBase36Go fuel (n / 36) ++ [base36Digit (n % 36)]

/-- JavaScript `timestamp.toString(36)`. -/
def encodeTimestamp (timestamp : Nat) : List Char :=
  if timestamp = 0 then ['0'] else toBase36Go timestamp timestamp

/-- The characters kept by the sanitizer's character class
`[a-zA-Z0-9._-]`. -/
def isAllowedChar (c : Char) : Bool :=
  decide (('a' ≤ c ∧ c ≤ 'z') ∨ ('A' ≤ c ∧ c ≤ 'Z') ∨ ('0' ≤ c ∧ c ≤ '9') ∨
    c = '.' ∨ c = '_' ∨ c = '-')

/-- `originalFilename.replace(/[^a-zA-Z0-9._-]/g, '_')`. -/
def sanitizeChars (l : List Char) : List Char :=
  l.map fun c => if isAllowedChar c then c else '_'

/-- `.replace(/^_+|_+$/g, '')`: strip leading and trailing underscores. -/
def stripEdgeUnderscores (l : List Char) : List Char :=
  ((l.dropWhile fun c => c == '_').reverse.dropWhile fun c => c == '_').reverse

/-- The server's `saneFilename`, with the empty-result fallback. -/
def saneFilename (originalFilename : String) : String :=
  let stripped := stripEdgeUnderscores (sanitizeChars originalFilename.data)
  if stripped = [] then "empty_filename_fallback" else String.mk stripped

/-- The server's `namingFunction`: base-36 creation timestamp, `-`, then
the sanitized filename.  The extraction of `originalFilename` from the
base64 `upload-metadata` request header (defaulting to `unknown_file` when
absent) is taken as the already-decoded input. -/
def namingFunction (timestamp : Nat) (originalFilename : String) : String :=
  String.mk (encodeTimestamp timestamp) ++ "-" ++ saneFilename originalFilename

/-! ### Claim C8 -/

theorem string_append_cancel_left (a b c : String) (h : a ++ b = a ++ c) :
    b = c := by
  have hd : (a ++ b).data = (a ++ c).data := congrArg String.data h
  rw [String.data_append, String.data_append] at hd
  have hbc := List.append_cancel_left hd
  cases b
  cases c
  exact congrArg String.mk hbc

/-- C8 counterexample: two distinct Create calls in the same millisecond —
filenames `"a b.txt"` and `"a?b.txt"`, both sanitizing to `a_b.txt` —
receive the identical upload id, so id generation is not collision-free
across concurrent creates. -/
theorem namingFunction_collision_cex :
    "a b.txt" ≠ "a?b.txt" ∧
      namingFunction 1000 "a b.txt" = namingFunction 1000 "a?b.txt" := by
  decide

/-- C8 (amended): within one millisecond, two Create calls receive the same
id exactly when their filenames sanitize to the same string; ids are
distinct only when the millisecond timestamps or the sanitized filenames
differ, so creates in the same millisecond whose filenames sanitize
identically collide. -/
theorem namingFunction_same_ms_collision (t : Nat) (f₁ f₂ : String) :
    namingFunction t f₁ = namingFunction t f₂ ↔
      saneFilename f₁ = saneFilename f₂ := by
  constructor
  · intro h
    exact string_append_cancel_left (String.mk (encodeTimestamp t) ++ "-") _ _ h
  · intro h
    rw [namingFunction, namingFunction, h]

/-! ## Client-side rate estimator

  Embeds `updateTransferStats`, `formatDuration` and the bounded
  transfer-rate history from `src/client/src/App.jsx` (lines 33-180).
  JavaScript numbers are modelled as `Rat`. -/

/-- Number of data points kept for the graph (`App.jsx`, line 35). -/
def TRANSFER_RATE_HISTORY_LENGTH : Nat := 30

/-- The history update inside `setTransferRateHistory` (lines 132-139):
append the new rate, then keep only the most recent
`TRANSFER_RATE_HISTORY_LENGTH` entries (`slice(length - N)`). -/
def pushRateHistory (prevHistory : List Rat) (currentRate : Rat) : List Rat :=
  let newHistory := prevHistory ++ [currentRate]
  if TRANSFER_RATE_HISTORY_LENGTH < newHistory.length then
    newHistory.drop (newHistory.length - TRANSFER_RATE_HISTORY_LENGTH)
  else newHistory

/-- The label update inside `setTimeLabels` (lines 141-147), same shape. -/
def pushTimeLabels (prevLabels : List String) (timestamp : String) : List String :=
  let newLabels := prevLabels ++ [timestamp]
  if TRANSFER_RATE_HISTORY_LENGTH < newLabels.length then
    newLabels.drop (newLabels.length - TRANSFER_RATE_HISTORY_LENGTH)
  else newLabels

/-- The React state and refs touched by `updateTransferStats`:
`lastBytesUploaded`/`lastUploadTime` refs, the `transferRate`, `eta`,
`transferRateHistory` and `timeLabels` state. -/
structure TransferStats where
  lastBytesUploaded : Rat
  lastUploadTime : Rat
  transferRate : Rat
  eta : Option Rat
  transferRateHistory : List Rat
  timeLabels : List String
deriving DecidableEq, Repr

/-- `updateTransferStats(bytesUploaded, bytesTotal)` (lines 119-160) at
wall-clock `currentTime` (milliseconds) with the formatted clock label
`timestamp`: when the elapsed time is positive the sample is processed —
rate set to `bytesDelta / timeElapsed`, history and labels pushed, ETA
recomputed only when the rate is positive, refs advanced; otherwise the
sample is discarded and nothing changes. -/
def updateTransferStats (st : TransferStats)
    (bytesUploaded bytesTotal currentTime : Rat) (timestamp : String) :
    TransferStats :=
  let timeElapsed := (currentTime - st.lastUploadTime) / 1000
  if timeElapsed > 0 then
    let bytesDelta := bytesUploaded - st.lastBytesUploaded
    let currentRate := bytesDelta / timeElapsed
    { lastBytesUploaded := bytesUploaded
      lastUploadTime := currentTime
      transferRate := currentRate
      eta :=
        if currentRate > 0 then some ((bytesTotal - bytesUploaded) / currentRate)
        else st.eta
      transferRateHistory := pushRateHistory st.transferRateHistory currentRate
      timeLabels := pushTimeLabels st.timeLabels timestamp }
  else st

/-- The estimator state as `startUpload` resets it (lines 247-255):
zeroed rate and refs, no ETA, empty history, `lastUploadTime = Date.now()`. -/
def initialTransferStats (now : Rat) : TransferStats :=
  ⟨0, now, 0, none, [], []⟩

/-- JavaScript `Math.trunc`-style integer part (the `%` operator truncates
toward zero). -/
def jsTrunc (q : Rat) : Int :=
  if q < 0 then ⌈q⌉ else ⌊q⌋

/-- JavaScript `%` on numbers: remainder with the dividend's sign. -/
def jsFmod (a b : Rat) : Rat :=
  a - b * (jsTrunc (a / b) : Int)

/-- `formatDuration(seconds)` (lines 163-180); the `null` argument is the
`none` case (`NaN` cannot arise over `Rat`). -/
def formatDuration (eta : Option Rat) : String :=
  match eta with
  | none => "Calculating..."
  | some seconds =>
    if seconds < 1 then "Less than a second"
    else
      (if 0 < ⌊seconds / 3600⌋ then toString ⌊seconds / 3600⌋ ++ "h " else "") ++
        (if 0 < ⌊jsFmod seconds 3600 / 60⌋ ∨ 0 < ⌊seconds / 3600⌋ then
          toString ⌊jsFmod seconds 3600 / 60⌋ ++ "m "
        else "") ++
        toString ⌊jsFmod seconds 60⌋ ++ "s"

/-- The estimator state right after a first positive-rate sample:
100 bytes confirmed out of 200 after one second. -/
def csState1 : TransferStats := ⟨100, 1000, 100, some 1, [100], ["t1"]⟩

theorem csState1_eq :
    updateTransferStats (initialTransferStats 0) 100 200 1000 "t1" = csState1 := by
  norm_num [updateTransferStats, initialTransferStats, csState1, pushRateHistory,
    pushTimeLabels, TRANSFER_RATE_HISTORY_LENGTH]

/-- The estimator state after a further zero-delta sample one second
later: the reported rate has dropped to zero while the ETA is retained. -/
def csState2 : TransferStats := ⟨100, 2000, 0, some 1, [100, 0], ["t1", "t2"]⟩

theorem csState2_eq : updateTransferStats csState1 100 200 2000 "t2" = csState2 := by
  norm_num [updateTransferStats, csState1, csState2, pushRateHistory,
    pushTimeLabels, TRANSFER_RATE_HISTORY_LENGTH]

/-! ### Claim C6 -/

/-- C6 counterexample: a zero-byte-delta sample with positive elapsed time
arriving immediately after a positive-rate sample is not discarded — it
drops the reported rate from 100 to 0 instead of leaving it unchanged. -/
theorem zero_delta_sample_cex :
    (updateTransferStats (initialTransferStats 0) 100 200 1000 "t1").transferRate
        = 100 ∧
      (updateTransferStats
          (updateTransferStats (initialTransferStats 0) 100 200 1000 "t1")
          100 200 2000 "t2").transferRate = 0 ∧
      (updateTransferStats
          (updateTransferStats (initialTransferStats 0) 100 200 1000 "t1")
          100 200 2000 "t2").transferRate ≠
        (updateTransferStats (initialTransferStats 0) 100 200 1000 "t1").transferRate := by
  rw [csState1_eq, csState2_eq]
  norm_num [csState1, csState2]

/-- C6 (amended): `updateTransferStats` discards exactly the samples whose
elapsed time is non-positive (the state is unchanged); a sample with
positive elapsed time and zero byte delta is processed and sets the
reported rate to zero. -/
theorem updateTransferStats_sample_handling (st : TransferStats)
    (bytesUploaded bytesTotal currentTime : Rat) (timestamp : String) :
    ((currentTime - st.lastUploadTime) / 1000 ≤ 0 →
      updateTransferStats st bytesUploaded bytesTotal currentTime timestamp = st) ∧
    (0 < (currentTime - st.lastUploadTime) / 1000 →
      bytesUploaded = st.lastBytesUploaded →
      (updateTransferStats st bytesUploaded bytesTotal currentTime
        timestamp).transferRate = 0) := by
  constructor
  · intro h
    simp only [updateTransferStats]
    rw [if_neg (not_lt.mpr h)]
  · intro h hb
    simp only [updateTransferStats]
    rw [if_pos h]
    simp [hb]

theorem updateTransferStats_sample_handling_witness :
    updateTransferStats csState2 100 200 1500 "t3" = csState2 ∧
      (updateTransferStats csState1 100 200 2000 "t2").transferRate = 0 :=
  ⟨(updateTransferStats_sample_handling csState2 100 200 1500 "t3").1
      (by norm_num [csState2]),
    (updateTransferStats_sample_handling csState1 100 200 2000 "t2").2
      (by norm_num [csState1]) (by norm_num [csState1])⟩

/-! ### Claim C7 -/

/-- C7 counterexample: after a positive-rate sample followed by a
zero-delta sample, the reported rate is non-positive yet the ETA still
holds the previously computed value and is displayed as `1s`, not as the
calculating placeholder. -/
theorem eta_nonpositive_rate_cex :
    csState2.transferRate ≤ 0 ∧ csState2.eta = some 1 ∧
      formatDuration csState2.eta ≠ "Calculating..." := by
  refine ⟨by norm_num [csState2], rfl, ?_⟩
  have h1 : formatDuration (some 1) = "1s" := by
    norm_num [formatDuration, jsFmod, jsTrunc]
    decide
  rw [show csState2.eta = some 1 from rfl, h1]
  decide

/-- C7 (amended): when a sample is processed (positive elapsed time), the
ETA is set to `(bytesTotal - bytesUploaded) / rate` exactly when the
instantaneous rate is positive, and is left at its previous value when the
rate is non-positive; the calculating placeholder is shown only while the
ETA is still unset, as in the freshly reset estimator state. -/
theorem updateTransferStats_eta_rule (st : TransferStats)
    (bytesUploaded bytesTotal currentTime : Rat) (timestamp : String) :
    (0 < (currentTime - st.lastUploadTime) / 1000 →
      0 < (bytesUploaded - st.lastBytesUploaded) /
          ((currentTime - st.lastUploadTime) / 1000) →
      (updateTransferStats st bytesUploaded bytesTotal currentTime timestamp).eta =
        some ((bytesTotal - bytesUploaded) /
          ((bytesUploaded - st.lastBytesUploaded) /
            ((currentTime - st.lastUploadTime) / 1000)))) ∧
    (0 < (currentTime - st.lastUploadTime) / 1000 →
      (bytesUploaded - st.lastBytesUploaded) /
          ((currentTime - st.lastUploadTime) / 1000) ≤ 0 →
      (updateTransferStats st bytesUploaded bytesTotal currentTime timestamp).eta =
        st.eta) ∧
    (initialTransferStats currentTime).eta = none ∧
    formatDuration none = "Calculating..." := by
  refine ⟨?_, ?_, rfl, rfl⟩
  · intro h hr
    simp only [updateTransferStats]
    rw [if_pos h]
    simp only
    rw [if_pos hr]
  · intro h hr
    simp only [updateTransferStats]
    rw [if_pos h]
    simp only
    rw [if_neg (not_lt.mpr hr)]

theorem updateTransferStats_eta_rule_witness :
    (updateTransferStats (initialTransferStats 0) 100 200 1000 "t1").eta =
      some ((200 - 100) /
        ((100 - (initialTransferStats 0).lastBytesUploaded) /
          ((1000 - (initialTransferStats 0).lastUploadTime) / 1000))) ∧
      (updateTransferStats csState1 100 200 2000 "t2").eta = csState1.eta :=
  ⟨(updateTransferStats_eta_rule (initialTransferStats 0) 100 200 1000 "t1").1
      (by norm_num [initialTransferStats]) (by norm_num [initialTransferStats]),
    (updateTransferStats_eta_rule csState1 100 200 2000 "t2").2.1
      (by norm_num [csState1]) (by norm_num [csState1])⟩

/-! ### Claim C9 -/

/-- One append to a history that is already the most-recent-30 suffix of
the samples seen so far produces the most-recent-30 suffix of the extended
sample list. -/
theorem pushRateHistory_drop_step (xs : List Rat) (x : Rat) :
    pushRateHistory (xs.drop (xs.length - 30)) x =
      (xs ++ [x]).drop (xs.length + 1 - 30) := by
  simp only [pushRateHistory, TRANSFER_RATE_HISTORY_LENGTH, List.length_append,
    List.length_drop, List.length_cons, List.length_nil]
  split
  · rename_i hc
    have h30 : 30 ≤ xs.length := by omega
    rw [show xs.length - (xs.length - 30) + 1 - 30 = 1 from by omega]
    rw [List.drop_append_of_le_length (by rw [List.length_drop]; omega)]
    rw [List.drop_drop, show xs.length + 1 - 30 = (xs.length - 30) + 1 from by omega]
    rw [List.drop_append_of_le_length (by omega)]
  · rename_i hc
    have h29 : xs.length ≤ 29 := by omega
    rw [show xs.length - 30 = 0 from by omega, show xs.length + 1 - 30 = 0 from by omega]
    rw [List.drop_zero, List.drop_zero]

/-- Folding the history update over any sample sequence from the empty
history yields exactly the most recent 30 samples in arrival order. -/
theorem foldl_pushRateHistory (samples : List Rat) :
    samples.foldl pushRateHistory [] = samples.drop (samples.length - 30) := by
  induction samples using List.reverseRecOn with
  | nil => rfl
  | append_singleton xs x ih =>
    rw [List.foldl_append, List.foldl_cons, List.foldl_nil, ih,
      pushRateHistory_drop_step]
    simp [List.length_append]

/-- C9: over every sequence of appended rate samples, the charting history
holds at most `TRANSFER_RATE_HISTORY_LENGTH` samples, and equals exactly
the most recent samples of the sequence in arrival order (the suffix left
after dropping the oldest entries beyond capacity). -/
theorem transferRateHistory_bounded (samples : List Rat) :
    samples.foldl pushRateHistory [] =
      samples.drop (samples.length - TRANSFER_RATE_HISTORY_LENGTH) ∧
      (samples.foldl pushRateHistory []).length ≤ TRANSFER_RATE_HISTORY_LENGTH := by
  have h := foldl_pushRateHistory samples
  refine ⟨h, ?_⟩
  rw [h, List.length_drop]
  unfold TRANSFER_RATE_HISTORY_LENGTH
  omega

/-! ## Client-side file selection and upload start

  Embeds `handleFileSelection` (App.jsx lines 221-236) and the
  request-issuing shape of `startUpload` (lines 238-323); each function
  returns the successor state together with the list of network requests it
  issues, which for `handleFileSelection` is always empty (the function
  performs no network operation) and for `startUpload` is the tus Create
  request of `tusUpload.start()`. -/

/-- Client-side error conditions: `fileTooLarge` is the
`File is too large. Maximum size is ...` message; `noFileSelected` is
`Please select a file first.`. -/
inductive ClientError where
  | fileTooLarge
  | noFileSelected
deriving DecidableEq, Repr

/-- A network request the client can issue. -/
inductive ClientRequest where
  | createUpload (size : Nat)
deriving DecidableEq, Repr

/-- The React state of `App` touched by file selection and upload start;
`file` holds the selected file's size. -/
structure AppState where
  file : Option Nat
  error : Option ClientError
  progress : Rat
  uploadURL : Option String
  uploadComplete : Bool
  isUploading : Bool
  transferRate : Rat
  eta : Option Rat
  transferRateHistory : List Rat
  timeLabels : List String
deriving DecidableEq, Repr

/-- `handleFileSelection(selectedFile)` with the configured
`MAX_FILE_SIZE_BYTES` (env-configured, default 20 GB): an oversize file
records the error and clears the selection; otherwise the file is selected
and the per-transfer state reset.  No network request is issued either
way. -/
def handleFileSelection (maxFileSize : Nat) (s : AppState) (size : Nat) :
    AppState × List ClientRequest :=
  if size > maxFileSize then
    ({ s with error := some .fileTooLarge, file := none }, [])
  else
    ({ s with
        file := some size
        error := none
        progress := 0
        uploadURL := none
        uploadComplete := false
        transferRate := 0
        eta := none
        transferRateHistory := []
        timeLabels := [] }, [])

/-- `startUpload`: with no file selected it only records
`Please select a file first.`; with a file selected it resets the
per-transfer state and issues the tus Create request
(`tusUpload.start()`). -/
def startUpload (s : AppState) : AppState × List ClientRequest :=
  match s.file with
  | none => ({ s with error := some .noFileSelected }, [])
  | some size =>
    ({ s with
        error := none
        uploadComplete := false
        progress := 0
        transferRate := 0
        eta := none
        transferRateHistory := []
        timeLabels := []
        isUploading := true }, [.createUpload size])

/-! ### Claim C5 -/

/-- C5: selecting a file whose size exceeds the configured maximum fails
fast with the file-too-large error before any network call: the selection
handler issues no network request, records the error, clears the
selection, and a subsequent `startUpload` issues no Create request
either. -/
theorem handleFileSelection_tooLarge (maxFileSize : Nat) (s : AppState)
    (size : Nat) (h : size > maxFileSize) :
    (handleFileSelection maxFileSize s size).2 = [] ∧
      (handleFileSelection maxFileSize s size).1.error = some .fileTooLarge ∧
      (handleFileSelection maxFileSize s size).1.file = none ∧
      (startUpload (handleFileSelection maxFileSize s size).1).2 = [] := by
  simp [handleFileSelection, startUpload, if_pos h]

/-- The app state before any interaction. -/
def appInit : AppState := ⟨none, none, 0, none, false, false, 0, none, [], []⟩

theorem handleFileSelection_tooLarge_witness :
    (handleFileSelection 100 appInit 101).2 = [] ∧
      (handleFileSelection 100 appInit 101).1.error = some .fileTooLarge ∧
      (handleFileSelection 100 appInit 101).1.file = none ∧
      (startUpload (handleFileSelection 100 appInit 101).1).2 = [] :=
  handleFileSelection_tooLarge 100 appInit 101 (by decide)

/-! ## Byte formatting (`src/unnamed/part_000`, `formatBytes`) -/

/-- A JavaScript number as classified by `Number.isFinite`: `NaN`, the two
infinities, or a finite value (modelled exactly as a rational). -/
inductive JSNumber where
  | nan
  | posInf
  | negInf
  | num (q : Rat)
deriving DecidableEq, Repr

/-- `Number.isFinite`. -/
def JSNumber.isFinite : JSNumber → Bool
  | .num _ => true
  | _ => false

/-- The unit table `sizes` of `formatBytes`. -/
def formatBytesSizes : List String :=
  ["Bytes", "KB", "MB", "GB", "TB", "PB", "EB", "ZB", "YB"]

/-- The unit index of `formatBytes`:
`Math.floor(Math.log(Math.abs(bytes)) / Math.log(k))` is the integer
base-1024 logarithm of `|bytes|`, embedded exactly as `Int.log 1024 |q|`,
then clamped by the source's `Math.max(0, Math.min(i, sizes.length - 1))`. -/
def formatBytesUnitIndex (q : Rat) : Int :=
  max 0 (min (Int.log 1024 |q|) 8)

/-- `formatBytes` from `src/unnamed/part_000`: non-finite or zero inputs
short-circuit to `"0 Bytes"`; otherwise the value is scaled by the selected
power of 1024 and suffixed with the unit at the clamped index (the numeric
prefix is rendered as the exact rational in place of
`parseFloat(....toFixed(dm))`, which only affects digits, not the guard or
unit selection the claim is about). -/
def formatBytes (bytes : JSNumber) : String :=
  if !bytes.isFinite || bytes == .num 0 then "0 Bytes"
  else
    match bytes with
    | .num q =>
      toString (q / (1024 : Rat) ^ (formatBytesUnitIndex q).toNat) ++ " " ++
        formatBytesSizes.getD (formatBytesUnitIndex q).toNat "OUT_OF_BOUNDS"
    | _ => "0 Bytes"

/-! ### Claim C10 -/

/-- C10: `formatBytes` never accesses the unit table out of bounds: a
non-finite or zero input returns `"0 Bytes"`, and for every other input the
clamped unit index lies within the bounds of the nine-entry unit table
(between 0 and 8 inclusive), so a valid unit suffix is produced even for
negative inputs, fractional inputs below one byte, or magnitudes beyond
the largest unit. -/
theorem formatBytes_safe :
    formatBytes .nan = "0 Bytes" ∧ formatBytes .posInf = "0 Bytes" ∧
      formatBytes .negInf = "0 Bytes" ∧ formatBytes (.num 0) = "0 Bytes" ∧
      ∀ q : Rat, 0 ≤ formatBytesUnitIndex q ∧
        (formatBytesUnitIndex q).toNat < formatBytesSizes.length := by
  refine ⟨rfl, rfl, rfl, by simp [formatBytes], fun q => ⟨le_max_left 0 _, ?_⟩⟩
  have h8 : formatBytesUnitIndex q ≤ 8 :=
    max_le (by norm_num) (min_le_right _ _)
  have h9 : (formatBytesUnitIndex q).toNat ≤ 8 := by omega
  simp only [formatBytesSizes, List.length_cons, List.length_nil]
  omega

end Dropsite
